import Mathlib

/-!
Shallow embedding of `src/dejavu/database_sqla.py` (the SQLAlchemy-backed
persistence layer of the dejavu audio-fingerprint store), together with
theorems settling the specification claims about it.

Modelling conventions:
* A byte string (Python `bytes`) is a `List Nat` of byte values.
* The database state is a `DB`: the `songs` and `fingerprints` tables as
  lists of rows, in insertion order (the order in which an unordered
  SQL query returns them).
* Hex strings at the boundary (`bytes.fromhex`, `bytes.hex`) are modelled
  by `bytesFromHex` / `hexEncode`; probe hashes handed to `return_matches`
  are modelled as already-decoded byte strings, since `bytes.fromhex` is a
  bijection between valid hex strings (up to letter case) and byte strings.
* Python exceptions are values of `PyError`; a fallible operation returns
  its result through `Except PyError`.
* The `session_scope` context manager is modelled as a combinator over a
  `Session` (committed base state + working view + closed flag); operations
  that the source wraps in `with self.session_scope() as session:` are
  defined through it.  Backend integrity constraints (primary keys, foreign
  keys) are not enforced by the model; no claim below depends on them.
-/

deriving instance DecidableEq for Except

namespace Dejavu

/-- Python exceptions that the modelled code paths can raise. -/
inductive PyError where
  /-- `AttributeError`, e.g. from `None.fingerprinted = True`. -/
  | attributeError
  /-- `sqlalchemy.orm.exc.MultipleResultsFound`, raised by `one_or_none`. -/
  | multipleResultsFound
  /-- `ValueError`, raised by `bytes.fromhex` on a non-hex string. -/
  | valueError
deriving DecidableEq

/-- A row of the `songs` table.  `file_sha1` holds the raw bytes of the
`_file_sha1` column (the hex/binary conversion happens at the property
boundary, see `hexEncode`). -/
structure Song where
  song_id : Nat
  name : String
  fingerprinted : Bool
  file_sha1 : List Nat
deriving DecidableEq

/-- A row of the `fingerprints` table.  `hash` holds the raw bytes of the
`_hash` column. -/
structure Fingerprint where
  hash : List Nat
  song_id : Nat
  song_offset : Int
deriving DecidableEq

/-- The whole store: both tables, rows in insertion order. -/
structure DB where
  songs : List Song
  fingerprints : List Fingerprint
deriving DecidableEq

/-- The value of one hex digit character, `none` for non-hex characters. -/
def hexDigitVal (c : Char) : Option Nat :=
  if '0' ≤ c ∧ c ≤ '9' then some (c.toNat - 48)
  else if 'a' ≤ c ∧ c ≤ 'f' then some (c.toNat - 87)
  else if 'A' ≤ c ∧ c ≤ 'F' then some (c.toNat - 55)
  else none

/-- Helper for `bytesFromHex`: consume hex digit pairs. -/
def bytesFromHexAux : List Char → Option (List Nat)
  | [] => some []
  | [_] => none
  | c1 :: c2 :: rest => do
      let hi ← hexDigitVal c1
      let lo ← hexDigitVal c2
      let bs ← bytesFromHexAux rest
      pure ((16 * hi + lo) :: bs)

/-- Python `bytes.fromhex`: an even-length string of hex digits decodes to
the corresponding byte string, anything else raises `ValueError` (modelled
as `none`).  (The Python original also skips ASCII whitespace between
pairs; no input in this development contains whitespace.) -/
def bytesFromHex (s : String) : Option (List Nat) :=
  bytesFromHexAux s.data

/-- The lowercase hex character for a value `< 16`. -/
def hexDigitChar (n : Nat) : Char :=
  if n < 10 then Char.ofNat (48 + n) else Char.ofNat (87 + n)

/-- The two lowercase hex characters of one byte. -/
def byteToHex (b : Nat) : List Char :=
  [hexDigitChar (b / 16), hexDigitChar (b % 16)]

/-- Python `bytes.hex()`: the lowercase hexadecimal rendering of a byte
string.  This is what the `Song.file_sha1` property returns. -/
def hexEncode (bs : List Nat) : String :=
  ⟨(bs.map byteToHex).flatten⟩

/-- Python `str.upper()` (ASCII is all that ever reaches it here). -/
def pyUpper (s : String) : String :=
  ⟨s.data.map Char.toUpper⟩

/-- A SQLAlchemy session: the committed state (`base`), the working state
of the open transaction (`view`), and whether the session was closed. -/
structure Session where
  base : DB
  view : DB
  closed : Bool
deriving DecidableEq

/-- `session.commit()`: make the working state durable. -/
def Session.commit (s : Session) : Session := { s with base := s.view }

/-- `session.rollback()`: discard the working state. -/
def Session.rollback (s : Session) : Session := { s with view := s.base }

/-- `session.close()`: release the connection. -/
def Session.close (s : Session) : Session := { s with closed := true }

/-- `SQLADatabase.session_scope`: run `body` on a fresh session over the
committed state `db`; commit on normal completion, roll back and re-raise
on an exception, close on every exit path.  Returns the final session and
the body's outcome. -/
def session_scope (db : DB) (body : DB → Except PyError (DB × α)) :
    Session × Except PyError α :=
  let s : Session := ⟨db, db, false⟩
  match body s.view with
  | .ok (v, a) => (({ s with view := v }).commit.close, .ok a)
  | .error e => (s.rollback.close, .error e)

/-- The dict materialized for a caller by `SQLADatabase._song_to_dict`:
note the `fingerprinted` field is `1 if song.fingerprinted is True else 0`
and `file_sha1` is `song.file_sha1.upper()` where the `file_sha1` property
is the lowercase hex of the stored bytes. -/
structure SongDict where
  song_id : Nat
  name : String
  fingerprinted : Nat
  file_sha1 : String
deriving DecidableEq

/-- `SQLADatabase._song_to_dict` on a non-`None` song. -/
def songToDict (s : Song) : SongDict :=
  { song_id := s.song_id
    name := s.name
    fingerprinted := if s.fingerprinted = true then 1 else 0
    file_sha1 := pyUpper (hexEncode s.file_sha1) }

/-- `SQLADatabase.get_num_songs`: count of songs with
`fingerprinted=True`.  (The enclosing `session_scope` is read-only and
commits trivially; the returned count is modelled directly.) -/
def get_num_songs (db : DB) : Nat :=
  (db.songs.filter (fun s => s.fingerprinted)).length

/-- `SQLADatabase.get_num_fingerprints`. -/
def get_num_fingerprints (db : DB) : Nat :=
  db.fingerprints.length

/-- `SQLADatabase.get_songs`: one dict per song with `fingerprinted=True`
(the generator is modelled as the list it yields). -/
def get_songs (db : DB) : List SongDict :=
  (db.songs.filter (fun s => s.fingerprinted)).map songToDict

/-- `SQLADatabase.get_song_by_id`: `session.query(Song).get(sid)` is a
primary-key lookup (first row with that id); `_song_to_dict` maps a
missing row to `None`. -/
def get_song_by_id (db : DB) (sid : Nat) : Option SongDict :=
  (db.songs.find? (fun s => decide (s.song_id = sid))).map songToDict

/-- SQLAlchemy `Query.one_or_none`: no row is `none`, one row is that row,
more than one raises `MultipleResultsFound`. -/
def one_or_none : List α → Except PyError (Option α)
  | [] => .ok none
  | [a] => .ok (some a)
  | _ :: _ :: _ => .error .multipleResultsFound

/-- The autoincrement id `session.flush()` assigns to a newly added song:
one more than the largest id in the table (1 on an empty table). -/
def nextSongId (db : DB) : Nat :=
  (db.songs.map (fun s => s.song_id)).foldl max 0 + 1

/-- `SQLADatabase.insert_song`: inside one `session_scope`, look up an
existing song **by name only**; if found return its id unchanged,
otherwise add a new song (`fingerprinted` defaults to `False`,
`file_sha1 = bytes.fromhex(file_hash)`) and return its fresh id. -/
def insert_song (db : DB) (song_name : String) (file_hash : String) :
    Session × Except PyError Nat :=
  session_scope db (fun d =>
    match one_or_none (d.songs.filter (fun s => decide (s.name = song_name))) with
    | .error e => .error e
    | .ok (some song) => .ok (d, song.song_id)
    | .ok none =>
      match bytesFromHex file_hash with
      | none => .error .valueError
      | some bs =>
        let sid := nextSongId d
        .ok ({ d with songs := d.songs ++ [⟨sid, song_name, false, bs⟩] }, sid))

/-- Set `fingerprinted := true` on the first song with the given id
(`session.query(Song).get(sid)` returns one row, which is then mutated). -/
def markFingerprinted : List Song → Nat → List Song
  | [], _ => []
  | s :: rest, i =>
      if s.song_id = i then { s with fingerprinted := true } :: rest
      else s :: markFingerprinted rest i

/-- Result of `set_song_fingerprinted`: final committed state, outcome,
and whether the `sid is None` warning was logged. -/
structure MarkResult where
  db : DB
  result : Except PyError Unit
  warned : Bool
deriving DecidableEq

/-- `SQLADatabase.set_song_fingerprinted`: with `sid = None` it only logs
a warning (no session is opened, nothing changes); otherwise, inside a
`session_scope`, `session.query(Song).get(sid)` either finds the row and
flips its flag, or returns `None`, in which case
`None.fingerprinted = True` raises `AttributeError` and the scope rolls
back. -/
def set_song_fingerprinted (db : DB) (sid : Option Nat) : MarkResult :=
  match sid with
  | none => ⟨db, .ok (), true⟩
  | some i =>
    let r := session_scope db (fun d =>
      match d.songs.find? (fun s => decide (s.song_id = i)) with
      | none => .error .attributeError
      | some _ => .ok ({ d with songs := markFingerprinted d.songs i }, ()))
    ⟨r.1.base, r.2, false⟩

/-- Python `int()` on a rational value: truncation toward zero (`int()`
on an `int` is the identity). -/
def pyInt (q : Rat) : Int :=
  Int.tdiv q.num q.den

/-- One iteration of the `insert_hashes` loop:
`Fingerprint(hash=h[0], song_id=sid, song_offset=int(h[1]))` added to the
session (`bytes.fromhex` in the `hash` setter can raise `ValueError`). -/
def insertHashStep (sid : Nat) (acc : DB) (h : String × Rat) :
    Except PyError DB :=
  match bytesFromHex h.1 with
  | none => .error .valueError
  | some bs =>
    .ok { acc with fingerprints := acc.fingerprints ++ [⟨bs, sid, pyInt h.2⟩] }

/-- `SQLADatabase.insert_hashes`: inside one `session_scope`, add one
fingerprint row per `(hash, offset)` pair, decoding the hex hash and
passing the offset through `int(...)`. -/
def insert_hashes (db : DB) (sid : Nat) (hashes : List (String × Rat)) :
    Session × Except PyError Unit :=
  session_scope db (fun d =>
    (hashes.foldlM (insertHashStep sid) d).map (fun d2 => (d2, ())))

/-- Consecutive blocks of `n + 1` elements (the last one possibly
shorter): the rows `zip_longest(*([iter(l)] * (n+1)))` groups, before
padding.  `blocksOf 998` is the 999-wide grouping `_grouper` uses. -/
def blocksOf (n : Nat) (l : List α) : List (List α) :=
  if h : l.isEmpty then []
  else l.take (n + 1) :: blocksOf n (l.drop (n + 1))
termination_by l.length
decreasing_by
  cases l with
  | nil => simp_all
  | cons a t => simp [List.length_drop]; omega

/-- Python `filter(None, chunk)` over a padded chunk: drop the `None`
padding and every falsy value (for `bytes`, exactly the empty string). -/
def pyTruthyFilter (chunk : List (Option (List Nat))) : List (List Nat) :=
  chunk.filterMap (fun o =>
    match o with
    | none => none
    | some k => if k = [] then none else some k)

/-- `SQLADatabase._grouper(iterable, 999)`: split into 999-wide chunks,
pad the last chunk with `None` to width 999, and strip fill values (and
any other falsy value) from each chunk with `filter(None, ...)`. -/
def grouper (l : List (List Nat)) : List (List (List Nat)) :=
  (blocksOf 998 l).map (fun b =>
    pyTruthyFilter (b.map some ++ List.replicate (999 - b.length) none))

/-- One step of building the `mapper` dict: `mapper[k] = v` overwrites the
value of an existing key in place, otherwise appends the new key (Python
dicts preserve first-insertion order of keys). -/
def mapInsert (m : List (List Nat × Int)) (k : List Nat) (v : Int) :
    List (List Nat × Int) :=
  if m.any (fun p => decide (p.1 = k)) then
    m.map (fun p => if p.1 = k then (k, v) else p)
  else m ++ [(k, v)]

/-- The `mapper` dict of `return_matches`: `for hash, offset in hashes:
mapper[hash] = offset`, as an insertion-ordered association list. -/
def buildMapper (hashes : List (List Nat × Int)) : List (List Nat × Int) :=
  hashes.foldl (fun m p => mapInsert m p.1 p.2) []

/-- Dict lookup `m[k]` (as an `Option`; inside `return_matches` the key is
always present). -/
def mapLookup (m : List (List Nat × Int)) (k : List Nat) : Option Int :=
  (m.find? (fun p => decide (p.1 = k))).map Prod.snd

/-- `mapper.keys()` of the probe's mapper, in insertion order. -/
def mapperKeys (hashes : List (List Nat × Int)) : List (List Nat) :=
  (buildMapper hashes).map Prod.fst

/-- `session.query(Fingerprint).filter(Fingerprint._hash.in_(split))`:
the stored rows whose hash is one of the chunk's values, in table order. -/
def queryIn (fps : List Fingerprint) (split : List (List Nat)) :
    List Fingerprint :=
  fps.filter (fun f => decide (f.hash ∈ split))

/-- The probe offset `mapper[h]` that `return_matches` subtracts for a
matched hash `h` (`0` is never used: every queried hash is a mapper key). -/
def recordedOffset (hashes : List (List Nat × Int)) (h : List Nat) : Int :=
  (mapLookup (buildMapper hashes) h).getD 0

/-- `SQLADatabase.return_matches`: build the mapper, query the store chunk
by chunk, and yield `(song_id, stored_offset - probe_offset)` per matched
row.  The generator is modelled as the list it yields; probe hashes are
already-decoded byte strings (see the header comment). -/
def return_matches (db : DB) (hashes : List (List Nat × Int)) :
    List (Nat × Int) :=
  let mapper := buildMapper hashes
  let fingerprints :=
    (grouper (mapper.map Prod.fst)).foldl
      (fun acc split => acc ++ queryIn db.fingerprints split) []
  fingerprints.map (fun f =>
    (f.song_id, f.song_offset - (mapLookup mapper f.hash).getD 0))

/-- The offset of the last occurrence of hash `h` in the probe sequence. -/
def lastOffset (hashes : List (List Nat × Int)) (h : List Nat) : Option Int :=
  ((hashes.filter (fun p => decide (p.1 = h))).map Prod.snd).getLast?

/-! ### Structural lemmas about chunking -/

theorem foldl_append_eq_flatten (cs : List σ) (q : σ → List τ) (acc : List τ) :
    cs.foldl (fun a c => a ++ q c) acc = acc ++ (cs.map q).flatten := by
  induction cs generalizing acc with
  | nil => simp
  | cons c cs ih => simp [ih]

theorem flatten_blocksOf (n : Nat) (l : List α) : (blocksOf n l).flatten = l := by
  rw [blocksOf]
  split
  · simp_all [List.isEmpty_iff]
  · rw [List.flatten_cons, flatten_blocksOf n (l.drop (n + 1))]
    exact List.take_append_drop _ _
termination_by l.length
decreasing_by
  cases l with
  | nil => simp_all
  | cons a t => simp [List.length_drop]; omega

theorem length_le_of_mem_blocksOf {n : Nat} {l c : List α}
    (hc : c ∈ blocksOf n l) : c.length ≤ n + 1 := by
  rw [blocksOf] at hc
  split at hc
  · simp at hc
  · rcases List.mem_cons.mp hc with h | h
    · subst h; simpa using List.length_take_le (n + 1) l
    · exact length_le_of_mem_blocksOf h
termination_by l.length
decreasing_by
  cases l with
  | nil => simp_all
  | cons a t => simp [List.length_drop]; omega

theorem pyTruthyFilter_replicate_none (k : Nat) :
    pyTruthyFilter (List.replicate k none) = [] := by
  induction k with
  | zero => rfl
  | succ k ih =>
    simpa [pyTruthyFilter, List.replicate_succ, List.filterMap_cons] using ih

theorem pyTruthyFilter_pad (b : List (List Nat)) (k : Nat) :
    pyTruthyFilter (b.map some ++ List.replicate k none)
      = b.filter (fun x => decide (x ≠ [])) := by
  induction b with
  | nil => simpa [pyTruthyFilter] using pyTruthyFilter_replicate_none k
  | cons x b ih =>
    simp only [pyTruthyFilter, List.map_cons, List.cons_append,
      List.filterMap_cons] at *
    by_cases hx : x = [] <;> simp [hx, List.filter_cons, ih]

theorem grouper_eq (l : List (List Nat)) :
    grouper l
      = (blocksOf 998 l).map (fun b => b.filter (fun x => decide (x ≠ []))) := by
  unfold grouper
  exact List.map_congr_left (fun b _ => pyTruthyFilter_pad b _)

theorem flatten_grouper (l : List (List Nat)) :
    (grouper l).flatten = l.filter (fun x => decide (x ≠ [])) := by
  rw [grouper_eq, ← List.filter_flatten, flatten_blocksOf]

theorem length_le_of_mem_grouper {l : List (List Nat)} {c : List (List Nat)}
    (hc : c ∈ grouper l) : c.length ≤ 999 := by
  rw [grouper_eq] at hc
  rcases List.mem_map.mp hc with ⟨b, hb, rfl⟩
  exact le_trans (List.length_filter_le _ _) (length_le_of_mem_blocksOf hb)

theorem nil_not_mem_of_mem_grouper {l : List (List Nat)} {c : List (List Nat)}
    (hc : c ∈ grouper l) : ¬ ([] ∈ c) := by
  rw [grouper_eq] at hc
  rcases List.mem_map.mp hc with ⟨b, _, rfl⟩
  intro hmem
  simpa using (List.mem_filter.mp hmem).2

theorem no_nil_of_mem_grouper {l : List (List Nat)} {c : List (List Nat)}
    (hc : c ∈ grouper l) : c.filter (fun x => decide (x ≠ [])) = c := by
  rw [grouper_eq] at hc
  rcases List.mem_map.mp hc with ⟨b, _, rfl⟩
  rw [List.filter_filter]
  exact List.filter_congr (fun x _ => by by_cases hx : x = [] <;> simp [hx])

/-! ### Lemmas about the probe mapper -/

theorem mem_keys_iff_any (m : List (List Nat × Int)) (k : List Nat) :
    k ∈ m.map Prod.fst ↔ m.any (fun p => decide (p.1 = k)) = true := by
  simp [List.any_eq_true, List.mem_map]

theorem mapInsert_map_fst (m : List (List Nat × Int)) (k : List Nat) (v : Int) :
    (mapInsert m k v).map Prod.fst
      = if m.any (fun p => decide (p.1 = k)) then m.map Prod.fst
        else m.map Prod.fst ++ [k] := by
  by_cases h : m.any (fun p => decide (p.1 = k)) = true
  · rw [mapInsert, if_pos h, if_pos h, List.map_map]
    exact List.map_congr_left (fun p _ => by by_cases hp : p.1 = k <;> simp [hp])
  · rw [mapInsert, if_neg h, if_neg h, List.map_append]; rfl

theorem nodup_keys_mapInsert {m : List (List Nat × Int)} {k : List Nat}
    {v : Int} (h : (m.map Prod.fst).Nodup) :
    ((mapInsert m k v).map Prod.fst).Nodup := by
  rw [mapInsert_map_fst]
  split
  · exact h
  · next hany =>
    rw [List.nodup_append]
    refine ⟨h, List.nodup_singleton k, ?_⟩
    intro a ha hb
    rw [List.mem_singleton] at hb
    subst hb
    exact hany ((mem_keys_iff_any m a).mp ha)

theorem nodup_mapperKeys (xs : List (List Nat × Int)) :
    (mapperKeys xs).Nodup := by
  suffices h : ∀ (m : List (List Nat × Int)), (m.map Prod.fst).Nodup →
      ((xs.foldl (fun m p => mapInsert m p.1 p.2) m).map Prod.fst).Nodup by
    simpa [mapperKeys, buildMapper] using h [] (by simp)
  induction xs with
  | nil => exact fun m hm => hm
  | cons p xs ih => exact fun m hm => ih _ (nodup_keys_mapInsert hm)

theorem mem_keys_mapInsert {m : List (List Nat × Int)} {k : List Nat}
    {v : Int} (a : List Nat) :
    a ∈ (mapInsert m k v).map Prod.fst ↔ a ∈ m.map Prod.fst ∨ a = k := by
  rw [mapInsert_map_fst]
  split
  · next h =>
    constructor
    · exact Or.inl
    · rintro (ha | rfl)
      · exact ha
      · exact (mem_keys_iff_any m a).mpr h
  · simp

theorem mem_mapperKeys (xs : List (List Nat × Int)) (a : List Nat) :
    a ∈ mapperKeys xs ↔ a ∈ xs.map Prod.fst := by
  suffices h : ∀ m,
      a ∈ (xs.foldl (fun m p => mapInsert m p.1 p.2) m).map Prod.fst
        ↔ a ∈ m.map Prod.fst ∨ a ∈ xs.map Prod.fst by
    simpa [mapperKeys, buildMapper] using h []
  induction xs with
  | nil => intro m; simp
  | cons p xs ih =>
    intro m
    rw [List.foldl_cons, ih, mem_keys_mapInsert]
    simp only [List.map_cons, List.mem_cons]
    tauto

theorem mapLookup_update (m : List (List Nat × Int)) (k : List Nat) (v : Int)
    (h : m.any (fun p => decide (p.1 = k)) = true) :
    mapLookup (m.map (fun p => if p.1 = k then (k, v) else p)) k = some v := by
  induction m with
  | nil => simp at h
  | cons q m ih =>
    by_cases hq : q.1 = k
    · simp [mapLookup, hq]
    · have h2 : m.any (fun p => decide (p.1 = k)) = true := by
        simpa [List.any_cons, hq] using h
      simpa [mapLookup, hq] using ih h2

theorem mapLookup_append_single (m : List (List Nat × Int)) (k : List Nat)
    (v : Int) (h : m.any (fun p => decide (p.1 = k)) = false) :
    mapLookup (m ++ [(k, v)]) k = some v := by
  unfold mapLookup
  rw [List.find?_append]
  have hnone : m.find? (fun p => decide (p.1 = k)) = none := by
    cases hf : m.find? (fun p => decide (p.1 = k)) with
    | none => rfl
    | some p =>
      have hmem := List.mem_of_find?_eq_some hf
      have hpk := List.find?_some hf
      have : m.any (fun q => decide (q.1 = k)) = true :=
        List.any_eq_true.mpr ⟨p, hmem, hpk⟩
      rw [this] at h
      simp at h
  simp [hnone]

theorem mapLookup_mapInsert_self (m : List (List Nat × Int)) (k : List Nat)
    (v : Int) : mapLookup (mapInsert m k v) k = some v := by
  unfold mapInsert
  by_cases h : m.any (fun p => decide (p.1 = k)) = true
  · rw [if_pos h]; exact mapLookup_update m k v h
  · rw [if_neg h]
    refine mapLookup_append_single m k v ?_
    cases hb : m.any (fun p => decide (p.1 = k)) with
    | false => rfl
    | true => exact absurd hb h

theorem mapLookup_map_update (m : List (List Nat × Int)) {k k2 : List Nat}
    (v : Int) (hne : k2 ≠ k) :
    mapLookup (m.map (fun p => if p.1 = k2 then (k2, v) else p)) k
      = mapLookup m k := by
  induction m with
  | nil => rfl
  | cons q m ih =>
    rw [List.map_cons]
    by_cases hq : q.1 = k2
    · rw [if_pos hq]
      unfold mapLookup
      rw [List.find?_cons_of_neg _ (by simp [hne]),
          List.find?_cons_of_neg _ (by simp [hq, hne])]
      exact ih
    · rw [if_neg hq]
      by_cases hk : q.1 = k
      · unfold mapLookup
        rw [List.find?_cons_of_pos _ (by simp [hk]),
            List.find?_cons_of_pos _ (by simp [hk])]
      · unfold mapLookup
        rw [List.find?_cons_of_neg _ (by simp [hk]),
            List.find?_cons_of_neg _ (by simp [hk])]
        exact ih

theorem mapLookup_mapInsert_other (m : List (List Nat × Int))
    {k k2 : List Nat} (v : Int) (hne : k2 ≠ k) :
    mapLookup (mapInsert m k2 v) k = mapLookup m k := by
  unfold mapInsert
  split
  · exact mapLookup_map_update m v hne
  · unfold mapLookup
    rw [List.find?_append]
    have : List.find? (fun p => decide (p.1 = k)) [(k2, v)] = none := by
      simp [List.find?, hne]
    simp [this]

theorem buildMapper_append_single (xs : List (List Nat × Int))
    (p : List Nat × Int) :
    buildMapper (xs ++ [p]) = mapInsert (buildMapper xs) p.1 p.2 := by
  unfold buildMapper
  rw [List.foldl_append]
  rfl

theorem mapLookup_buildMapper (xs : List (List Nat × Int)) (k : List Nat) :
    mapLookup (buildMapper xs) k = lastOffset xs k := by
  induction xs using List.reverseRecOn with
  | nil => rfl
  | append_singleton xs p ih =>
    rw [buildMapper_append_single]
    by_cases hp : p.1 = k
    · rw [hp, mapLookup_mapInsert_self]
      unfold lastOffset
      rw [List.filter_append]
      simp [hp]
    · rw [mapLookup_mapInsert_other _ _ hp, ih]
      unfold lastOffset
      rw [List.filter_append]
      simp [hp]

/-! ### The chunked query as one big membership filter -/

theorem filter_or_disjoint (fps : List γ) (p q : γ → Bool)
    (h : ∀ f, ¬(p f = true ∧ q f = true)) :
    (fps.filter (fun f => p f || q f)).Perm (fps.filter p ++ fps.filter q) := by
  induction fps with
  | nil => simp
  | cons a fps ih =>
    rw [List.filter_cons, List.filter_cons, List.filter_cons]
    by_cases hp : p a = true
    · have hq : q a = false := by
        cases hqa : q a
        · rfl
        · exact absurd ⟨hp, hqa⟩ (h a)
      rw [if_pos (by simp [hp]), if_pos hp, if_neg (by simp [hq])]
      exact ih.cons a
    · by_cases hq : q a = true
      · rw [if_pos (by simp [hp, hq]), if_neg hp, if_pos hq]
        exact (ih.cons a).trans List.perm_middle.symm
      · rw [if_neg (by simp [hp, hq]), if_neg hp, if_neg hq]
        exact ih

theorem flatten_queryIn_perm (cs : List (List (List Nat)))
    (fps : List Fingerprint) (h : cs.flatten.Nodup) :
    ((cs.map (fun c => queryIn fps c)).flatten).Perm (queryIn fps cs.flatten) := by
  induction cs with
  | nil => simp [queryIn]
  | cons c cs ih =>
    rw [List.map_cons, List.flatten_cons, List.flatten_cons]
    have hnodup2 : cs.flatten.Nodup := ((List.nodup_append.mp h).2).1
    have hdisj := ((List.nodup_append.mp h).2).2
    have e1 : queryIn fps (c ++ cs.flatten)
        = fps.filter (fun f =>
            decide (f.hash ∈ c) || decide (f.hash ∈ cs.flatten)) := by
      unfold queryIn
      exact List.filter_congr (fun f _ => by simp [List.mem_append])
    rw [e1]
    refine ((ih hnodup2).append_left _).trans ?_
    refine (filter_or_disjoint fps _ _ ?_).symm
    rintro f ⟨h1, h2⟩
    rw [decide_eq_true_eq] at h1 h2
    exact hdisj h1 h2

theorem return_matches_eq_flatten (db : DB) (probe : List (List Nat × Int)) :
    return_matches db probe
      = (((grouper (mapperKeys probe)).map
            (fun c => queryIn db.fingerprints c)).flatten).map
          (fun f => (f.song_id, f.song_offset - recordedOffset probe f.hash)) := by
  unfold return_matches recordedOffset mapperKeys
  dsimp only
  rw [foldl_append_eq_flatten]
  simp

theorem return_matches_perm_filter (db : DB) (probe : List (List Nat × Int)) :
    (return_matches db probe).Perm
      ((db.fingerprints.filter (fun f =>
          decide (f.hash ≠ [] ∧ f.hash ∈ probe.map Prod.fst))).map
        (fun f => (f.song_id, f.song_offset - recordedOffset probe f.hash))) := by
  rw [return_matches_eq_flatten]
  refine List.Perm.map _ ?_
  have hnodup : (grouper (mapperKeys probe)).flatten.Nodup := by
    rw [flatten_grouper]
    exact (nodup_mapperKeys probe).filter _
  have h1 := flatten_queryIn_perm (grouper (mapperKeys probe)) db.fingerprints
    hnodup
  rw [flatten_grouper] at h1
  refine h1.trans ?_
  have e : queryIn db.fingerprints
        ((mapperKeys probe).filter (fun x => decide (x ≠ [])))
      = db.fingerprints.filter (fun f =>
          decide (f.hash ≠ [] ∧ f.hash ∈ probe.map Prod.fst)) := by
    unfold queryIn
    refine List.filter_congr (fun f _ => ?_)
    rw [decide_eq_decide, List.mem_filter]
    constructor
    · rintro ⟨hK, hne⟩
      rw [decide_eq_true_eq] at hne
      exact ⟨hne, (mem_mapperKeys probe f.hash).mp hK⟩
    · rintro ⟨hne, hmem⟩
      exact ⟨(mem_mapperKeys probe f.hash).mpr hmem, by simp [hne]⟩
  rw [e]

/-! ### Restricting the probe to one chunk -/

theorem mapInsert_filter_of_mem (m : List (List Nat × Int)) {k : List Nat}
    (v : Int) (c : List (List Nat)) (hk : k ∈ c) :
    mapInsert (m.filter (fun p => decide (p.1 ∈ c))) k v
      = (mapInsert m k v).filter (fun p => decide (p.1 ∈ c)) := by
  by_cases h : m.any (fun p => decide (p.1 = k)) = true
  · have hf : (m.filter (fun p => decide (p.1 ∈ c))).any
        (fun p => decide (p.1 = k)) = true := by
      rcases List.any_eq_true.mp h with ⟨p, hp, hpk⟩
      rw [decide_eq_true_eq] at hpk
      exact List.any_eq_true.mpr
        ⟨p, List.mem_filter.mpr ⟨hp, by simp [hpk, hk]⟩, by simp [hpk]⟩
    rw [mapInsert, if_pos hf, mapInsert, if_pos h, List.filter_map]
    congr 1
    refine List.filter_congr (fun p _ => ?_)
    by_cases hp : p.1 = k <;> simp [hp, Function.comp]
  · have hf : ¬ ((m.filter (fun p => decide (p.1 ∈ c))).any
        (fun p => decide (p.1 = k)) = true) := by
      intro hb
      rcases List.any_eq_true.mp hb with ⟨p, hp, hpk⟩
      exact h (List.any_eq_true.mpr ⟨p, (List.mem_filter.mp hp).1, hpk⟩)
    rw [mapInsert, if_neg hf, mapInsert, if_neg h, List.filter_append]
    simp [hk]

theorem mapInsert_filter_of_not_mem (m : List (List Nat × Int))
    {k : List Nat} (v : Int) (c : List (List Nat)) (hk : k ∉ c) :
    (mapInsert m k v).filter (fun p => decide (p.1 ∈ c))
      = m.filter (fun p => decide (p.1 ∈ c)) := by
  by_cases h : m.any (fun p => decide (p.1 = k)) = true
  · rw [mapInsert, if_pos h, List.filter_map]
    have e1 : List.filter
          ((fun p : List Nat × Int => decide (p.1 ∈ c)) ∘
            fun p => if p.1 = k then (k, v) else p) m
        = m.filter (fun p => decide (p.1 ∈ c)) := by
      refine List.filter_congr (fun p _ => ?_)
      by_cases hp : p.1 = k <;> simp [hp, Function.comp]
    rw [e1]
    have e2 : (m.filter (fun p => decide (p.1 ∈ c))).map
          (fun p => if p.1 = k then (k, v) else p)
        = (m.filter (fun p => decide (p.1 ∈ c))).map id := by
      refine List.map_congr_left (fun p hp => ?_)
      have hpc : p.1 ∈ c := by
        have := (List.mem_filter.mp hp).2
        rwa [decide_eq_true_eq] at this
      have hpk : ¬ p.1 = k := fun he => hk (he ▸ hpc)
      simp [hpk]
    rw [e2, List.map_id]
  · rw [mapInsert, if_neg h, List.filter_append]
    simp [hk]

theorem buildMapper_filter (xs : List (List Nat × Int))
    (c : List (List Nat)) :
    buildMapper (xs.filter (fun p => decide (p.1 ∈ c)))
      = (buildMapper xs).filter (fun p => decide (p.1 ∈ c)) := by
  induction xs using List.reverseRecOn with
  | nil => rfl
  | append_singleton xs p ih =>
    rw [List.filter_append]
    by_cases hp : p.1 ∈ c
    · rw [show List.filter (fun p => decide (p.1 ∈ c)) [p] = [p] by simp [hp]]
      rw [buildMapper_append_single, buildMapper_append_single, ih]
      exact mapInsert_filter_of_mem _ _ _ hp
    · rw [show List.filter (fun p => decide (p.1 ∈ c)) [p] = [] by simp [hp],
          List.append_nil, ih, buildMapper_append_single]
      exact (mapInsert_filter_of_not_mem _ _ _ hp).symm

theorem mapLookup_filter_of_mem (m : List (List Nat × Int)) {k : List Nat}
    (c : List (List Nat)) (hk : k ∈ c) :
    mapLookup (m.filter (fun p => decide (p.1 ∈ c))) k = mapLookup m k := by
  induction m with
  | nil => rfl
  | cons q m ih =>
    rw [List.filter_cons]
    by_cases hq : q.1 ∈ c
    · rw [if_pos (by simp [hq])]
      by_cases hqk : q.1 = k
      · unfold mapLookup
        rw [List.find?_cons_of_pos _ (by simp [hqk]),
            List.find?_cons_of_pos _ (by simp [hqk])]
      · unfold mapLookup
        rw [List.find?_cons_of_neg _ (by simp [hqk]),
            List.find?_cons_of_neg _ (by simp [hqk])]
        exact ih
    · rw [if_neg (by simp [hq])]
      have hqk : ¬ q.1 = k := fun he => hq (he ▸ hk)
      rw [ih]
      unfold mapLookup
      rw [List.find?_cons_of_neg _ (by simp [hqk])]

theorem exists_segment_of_mem {β : Type} {cs : List (List β)} {b : List β}
    (hb : b ∈ cs) : ∃ pre post, cs.flatten = pre ++ (b ++ post) := by
  induction cs with
  | nil => simp at hb
  | cons c cs ih =>
    rcases List.mem_cons.mp hb with rfl | h
    · exact ⟨[], cs.flatten, by simp⟩
    · rcases ih h with ⟨pre, post, he⟩
      exact ⟨c ++ pre, post, by simp [he]⟩

theorem filter_mem_chunk_eq {K pre b post : List (List Nat)}
    (hK : K.Nodup) (he : K = pre ++ (b ++ post)) :
    K.filter (fun x => decide (x ∈ b.filter (fun y => decide (y ≠ []))))
      = b.filter (fun y => decide (y ≠ [])) := by
  subst he
  rw [List.filter_append, List.filter_append]
  rcases List.nodup_append.mp hK with ⟨hpre, hrest, hdisj1⟩
  rcases List.nodup_append.mp hrest with ⟨hbn, hpost, hdisj2⟩
  have hpre0 : pre.filter
      (fun x => decide (x ∈ b.filter (fun y => decide (y ≠ [])))) = [] := by
    rw [List.filter_eq_nil_iff]
    intro x hx hxc
    rw [decide_eq_true_eq] at hxc
    exact hdisj1 hx (List.mem_append.mpr (Or.inl (List.mem_filter.mp hxc).1))
  have hpost0 : post.filter
      (fun x => decide (x ∈ b.filter (fun y => decide (y ≠ [])))) = [] := by
    rw [List.filter_eq_nil_iff]
    intro x hx hxc
    rw [decide_eq_true_eq] at hxc
    exact hdisj2 (List.mem_filter.mp hxc).1 hx
  have hbc : b.filter
      (fun x => decide (x ∈ b.filter (fun y => decide (y ≠ []))))
        = b.filter (fun y => decide (y ≠ [])) := by
    refine List.filter_congr (fun x hx => ?_)
    rw [decide_eq_decide]
    constructor
    · intro hxc
      have := (List.mem_filter.mp hxc).2
      rwa [decide_eq_true_eq] at this
    · intro hne
      exact List.mem_filter.mpr ⟨hx, by simp [hne]⟩
  rw [hpre0, hbc, hpost0, List.nil_append, List.append_nil]

theorem mapperKeys_filter_chunk {probe : List (List Nat × Int)}
    {c : List (List Nat)} (hc : c ∈ grouper (mapperKeys probe)) :
    mapperKeys (probe.filter (fun p => decide (p.1 ∈ c))) = c := by
  have h0 : c ∈ (blocksOf 998 (mapperKeys probe)).map
      (fun b => b.filter (fun y => decide (y ≠ []))) := by
    rw [← grouper_eq]; exact hc
  rcases List.mem_map.mp h0 with ⟨b, hb, rfl⟩
  rcases exists_segment_of_mem hb with ⟨pre, post, he⟩
  rw [flatten_blocksOf] at he
  unfold mapperKeys
  rw [buildMapper_filter]
  rw [show (fun p : List Nat × Int =>
        decide (p.1 ∈ b.filter (fun y => decide (y ≠ []))))
      = ((fun x => decide (x ∈ b.filter (fun y => decide (y ≠ [])))) ∘
          Prod.fst) from rfl]
  rw [← List.filter_map]
  exact filter_mem_chunk_eq (nodup_mapperKeys probe) he

theorem blocksOf_nil (n : Nat) : blocksOf n ([] : List α) = [] := by
  rw [blocksOf]; simp

theorem grouper_nil : grouper [] = [] := by
  rw [grouper_eq, blocksOf_nil]; rfl

theorem blocksOf_small {l : List α} {n : Nat} (hne : l ≠ [])
    (h : l.length ≤ n + 1) : blocksOf n l = [l] := by
  rw [blocksOf, dif_neg (by simpa [List.isEmpty_iff] using hne),
      List.take_of_length_le h, List.drop_eq_nil_of_le h, blocksOf_nil]

theorem grouper_singleton {c : List (List Nat)} (hne : c ≠ [])
    (hlen : c.length ≤ 999)
    (hnonil : c.filter (fun y => decide (y ≠ [])) = c) :
    grouper c = [c] := by
  rw [grouper_eq, blocksOf_small hne hlen, List.map_cons, List.map_nil,
      hnonil]

theorem return_matches_restrict (db : DB) (probe : List (List Nat × Int))
    {c : List (List Nat)} (hc : c ∈ grouper (mapperKeys probe)) :
    return_matches db (probe.filter (fun p => decide (p.1 ∈ c)))
      = (queryIn db.fingerprints c).map
          (fun f => (f.song_id, f.song_offset - recordedOffset probe f.hash)) := by
  rw [return_matches_eq_flatten, mapperKeys_filter_chunk hc]
  by_cases hce : c = []
  · subst hce
    simp [grouper_nil, queryIn]
  · have hnonil : c.filter (fun y => decide (y ≠ [])) = c :=
      no_nil_of_mem_grouper hc
    rw [grouper_singleton hce (length_le_of_mem_grouper hc) hnonil,
        List.map_cons, List.map_nil, List.flatten_cons, List.flatten_nil,
        List.append_nil]
    refine List.map_congr_left (fun f hf => ?_)
    have hfc : f.hash ∈ c := by
      have := (List.mem_filter.mp hf).2
      rwa [decide_eq_true_eq] at this
    unfold recordedOffset
    rw [buildMapper_filter, mapLookup_filter_of_mem _ _ hfc]

theorem return_matches_chunked (db : DB) (probe : List (List Nat × Int)) :
    return_matches db probe
      = ((grouper (mapperKeys probe)).map (fun c =>
          return_matches db (probe.filter (fun p => decide (p.1 ∈ c))))).flatten := by
  rw [return_matches_eq_flatten, List.map_flatten, List.map_map]
  congr 1
  refine List.map_congr_left (fun c hc => ?_)
  exact (return_matches_restrict db probe hc).symm

/-! ### Remaining operation-level helpers -/

theorem filter_erase_eq (l : List Song) (S : Song)
    (h : S.fingerprinted = false) :
    (l.erase S).filter (fun s => s.fingerprinted)
      = l.filter (fun s => s.fingerprinted) := by
  induction l with
  | nil => rfl
  | cons a l ih =>
    rw [List.erase_cons]
    by_cases ha : a = S
    · rw [if_pos (by simp [ha]), List.filter_cons, ha, if_neg (by simp [h])]
    · rw [if_neg (by simp [ha]), List.filter_cons, List.filter_cons]
      by_cases hf : a.fingerprinted = true <;> simp [hf, ih]

theorem insert_song_existing (db : DB) (n fh : String) (s : Song)
    (h : db.songs.filter (fun x => decide (x.name = n)) = [s]) :
    insert_song db n fh = (⟨db, db, true⟩, .ok s.song_id) := by
  simp [insert_song, session_scope, h, one_or_none, Session.commit,
    Session.close]

/-- The fingerprint row that one valid `(hash, offset)` pair of
`insert_hashes` stores. -/
def hashRow (sid : Nat) (p : String × Rat) : Fingerprint :=
  ⟨(bytesFromHex p.1).getD [], sid, pyInt p.2⟩

theorem insert_hashes_foldlM (sid : Nat) (hs : List (String × Rat)) :
    ∀ d : DB, (∀ p ∈ hs, (bytesFromHex p.1).isSome = true) →
      hs.foldlM (insertHashStep sid) d
        = .ok { d with
                fingerprints := d.fingerprints ++ hs.map (hashRow sid) } := by
  induction hs with
  | nil =>
    intro d _
    rw [List.foldlM_nil, List.map_nil, List.append_nil]
    rfl
  | cons p hs ih =>
    intro d hvalid
    have hp := hvalid p (List.mem_cons_self p hs)
    rcases Option.isSome_iff_exists.mp hp with ⟨bs, hbs⟩
    have hstep : insertHashStep sid d p
        = .ok { d with
                fingerprints := d.fingerprints ++ [hashRow sid p] } := by
      simp [insertHashStep, hashRow, hbs]
    rw [List.foldlM_cons, hstep]
    show hs.foldlM (insertHashStep sid)
        { d with fingerprints := d.fingerprints ++ [hashRow sid p] } = _
    rw [ih _ (fun q hq => hvalid q (List.mem_cons_of_mem p hq))]
    simp

/-! ### The claims -/

/-- C1 counterexample: the probe hash `[]` (the decoding of the empty hex
string) and a stored row with the same (empty) hash: the row's hash equals
a probed hash, yet `return_matches` emits nothing, because
`filter(None, ...)` strips the falsy empty byte string from the query
chunk. -/
theorem C1_counterexample :
    return_matches ⟨[], [⟨[], 1, 5⟩]⟩ [([], 3)] = []
      ∧ (⟨[], 1, 5⟩ : Fingerprint).hash = ([], (3 : Int)).1 := by
  constructor
  · rw [return_matches_eq_flatten]
    have hk : mapperKeys [([], (3 : Int))] = [[]] := by decide
    rw [hk, grouper_eq, blocksOf_small (by decide) (by decide)]
    decide
  · rfl

/-- C1 (amended): for every stored `Fingerprint` row whose hash is
non-empty and equals some probed hash, `return_matches` emits exactly one
correspondence `(song_id, stored_offset - probe_offset)` where the probe
offset is the one recorded in the mapper for that hash; rows with the
empty hash are never matched (the padding filter also strips the empty
value).  Stated as: the emitted list is a permutation of one
correspondence per matching stored row. -/
theorem C1_theorem (db : DB) (probe : List (List Nat × Int)) :
    (return_matches db probe).Perm
      ((db.fingerprints.filter (fun f =>
          decide (f.hash ≠ [] ∧ f.hash ∈ probe.map Prod.fst))).map
        (fun f => (f.song_id, f.song_offset - recordedOffset probe f.hash))) :=
  return_matches_perm_filter db probe

/-- C2: the mapper records, for each probed hash, the offset of its last
occurrence in the probe sequence (dict overwrite semantics), and
concretely the probe `[(H, 5), (H, 9)]` against a stored fingerprint
`(H, offset 9)` for song `7` yields difference `0`, not `4`. -/
theorem C2_theorem :
    (∀ (probe : List (List Nat × Int)) (h : List Nat),
        mapLookup (buildMapper probe) h = lastOffset probe h)
      ∧ return_matches ⟨[], [⟨[171], 7, 9⟩]⟩ [([171], 5), ([171], 9)]
          = [(7, 0)] := by
  constructor
  · exact mapLookup_buildMapper
  · rw [return_matches_eq_flatten]
    have hk : mapperKeys [([171], (5 : Int)), ([171], 9)] = [[171]] := by
      decide
    rw [hk, grouper_singleton (by decide) (by decide) (by decide)]
    decide

/-- C3: the match engine chunks the distinct probe hashes into groups of
at most 999, the chunks partition the non-empty distinct hashes (padding
fill values are filtered out), and the full result equals the
concatenation of running `return_matches` independently on the probe
restricted to each chunk. -/
theorem C3_theorem (db : DB) (probe : List (List Nat × Int)) :
    (∀ c ∈ grouper (mapperKeys probe), c.length ≤ 999)
      ∧ (grouper (mapperKeys probe)).flatten
          = (mapperKeys probe).filter (fun k => decide (k ≠ []))
      ∧ return_matches db probe
          = ((grouper (mapperKeys probe)).map (fun c =>
              return_matches db
                (probe.filter (fun p => decide (p.1 ∈ c))))).flatten :=
  ⟨fun _ hc => length_le_of_mem_grouper hc, flatten_grouper _,
    return_matches_chunked db probe⟩

/-- C3 witness: the chunk bound and the chunk decomposition at a concrete
store and probe. -/
theorem C3_witness :
    ([[171]] : List (List Nat)).length ≤ 999
      ∧ return_matches ⟨[], [⟨[171], 7, 9⟩]⟩ [([171], 5)]
          = ((grouper (mapperKeys [([171], (5 : Int))])).map (fun c =>
              return_matches ⟨[], [⟨[171], 7, 9⟩]⟩
                (([([171], (5 : Int))]).filter
                  (fun p => decide (p.1 ∈ c))))).flatten := by
  refine ⟨(C3_theorem ⟨[], [⟨[171], 7, 9⟩]⟩ [([171], 5)]).1 [[171]] ?_,
    (C3_theorem ⟨[], [⟨[171], 7, 9⟩]⟩ [([171], 5)]).2.2⟩
  have hk : mapperKeys [([171], (5 : Int))] = [[171]] := by decide
  rw [hk, grouper_singleton (by decide) (by decide) (by decide)]
  decide

/-- C4 counterexample: for a stored song whose binary hash is the byte
`0xab`, `get_song_by_id` materializes `file_sha1 = "AB"` — the uppercase
hex (the `_song_to_dict` method applies `.upper()`), not the lowercase
rendering `"ab"`. -/
theorem C4_counterexample :
    get_song_by_id ⟨[⟨1, "x", true, [171]⟩], []⟩ 1
        = some ⟨1, "x", 1, "AB"⟩
      ∧ hexEncode [171] = "ab"
      ∧ ("AB" : String) ≠ "ab" := by
  refine ⟨by decide, by decide, by decide⟩

/-- C4 (amended): every song record materialized by `get_song_by_id` or
`get_songs` carries as `file_sha1` the **uppercase** hexadecimal rendering
of the stored binary hash (the lowercase `bytes.hex()` passed through
`str.upper()`). -/
theorem C4_theorem :
    (∀ (db : DB) (sid : Nat) (d : SongDict),
        get_song_by_id db sid = some d →
          ∃ s : Song,
            db.songs.find? (fun x => decide (x.song_id = sid)) = some s
              ∧ d.file_sha1 = pyUpper (hexEncode s.file_sha1))
      ∧ (∀ (db : DB) (d : SongDict), d ∈ get_songs db →
          ∃ s : Song, s ∈ db.songs
            ∧ d.file_sha1 = pyUpper (hexEncode s.file_sha1)) := by
  constructor
  · intro db sid d hd
    unfold get_song_by_id at hd
    cases hf : db.songs.find? (fun x => decide (x.song_id = sid)) with
    | none => rw [hf] at hd; simp at hd
    | some s =>
      rw [hf] at hd
      simp only [Option.map_some'] at hd
      exact ⟨s, rfl, by rw [← Option.some_inj.mp hd]; rfl⟩
  · intro db d hd
    unfold get_songs at hd
    rcases List.mem_map.mp hd with ⟨s, hs, rfl⟩
    exact ⟨s, (List.mem_filter.mp hs).1, rfl⟩

/-- C4 witness: the amended claim applied at a concrete store. -/
theorem C4_witness :
    ∃ s : Song,
      (⟨[⟨1, "x", true, [171]⟩], []⟩ : DB).songs.find?
          (fun x => decide (x.song_id = 1)) = some s
        ∧ ("AB" : String) = pyUpper (hexEncode s.file_sha1) :=
  C4_theorem.1 ⟨[⟨1, "x", true, [171]⟩], []⟩ 1 ⟨1, "x", 1, "AB"⟩ (by decide)

/-- C5 counterexample: a `song_id` that identifies no stored song does
**not** complete without raising: `session.query(Song).get(sid)` returns
`None` and `None.fingerprinted = True` raises `AttributeError` (the scope
rolls back, no warning is logged). -/
theorem C5_counterexample :
    set_song_fingerprinted ⟨[], []⟩ (some 1)
      = ⟨⟨[], []⟩, .error .attributeError, false⟩ := by decide

/-- C5 (amended): a null `song_id` completes without raising (warning
logged, state unchanged); a `song_id` identifying no stored song raises
`AttributeError` and the transaction rolls back, leaving the state
unchanged. -/
theorem C5_theorem :
    (∀ db : DB, set_song_fingerprinted db none = ⟨db, .ok (), true⟩)
      ∧ (∀ (db : DB) (i : Nat),
          db.songs.find? (fun s => decide (s.song_id = i)) = none →
            set_song_fingerprinted db (some i)
              = ⟨db, .error .attributeError, false⟩) := by
  constructor
  · intro db; rfl
  · intro db i h
    simp [set_song_fingerprinted, session_scope, h, Session.rollback,
      Session.close]

/-- C5 witness: the amended claim applied at a concrete store. -/
theorem C5_witness :
    set_song_fingerprinted ⟨[⟨2, "y", true, []⟩], []⟩ (some 1)
      = ⟨⟨[⟨2, "y", true, []⟩], []⟩, .error .attributeError, false⟩ :=
  C5_theorem.2 ⟨[⟨2, "y", true, []⟩], []⟩ 1 (by decide)

/-- C6: registering the same `(name, file_hash)` twice returns the same
`song_id` both times and the second call commits the store unchanged; and
the lookup for an existing song matches on the name only — the `file_hash`
argument is ignored whenever a song with that name already exists. -/
theorem C6_theorem :
    (∀ (db : DB) (n fh : String) (s1 : Session) (id : Nat),
        insert_song db n fh = (s1, .ok id) →
          insert_song s1.base n fh = (⟨s1.base, s1.base, true⟩, .ok id))
      ∧ (∀ (db : DB) (n fh : String) (s : Song),
          db.songs.filter (fun x => decide (x.name = n)) = [s] →
            insert_song db n fh = (⟨db, db, true⟩, .ok s.song_id)) := by
  constructor
  · intro db n fh s1 id he
    cases hfil : db.songs.filter (fun x => decide (x.name = n)) with
    | nil =>
      cases hbs : bytesFromHex fh with
      | none =>
        have hcomp : insert_song db n fh
            = (⟨db, db, true⟩, .error .valueError) := by
          simp [insert_song, session_scope, hfil, one_or_none, hbs,
            Session.rollback, Session.close]
        rw [hcomp] at he
        have hsnd := congrArg Prod.snd he
        simp at hsnd
      | some bs =>
        have hcomp : insert_song db n fh
            = (⟨{ db with songs :=
                    db.songs ++ [⟨nextSongId db, n, false, bs⟩] },
                { db with songs :=
                    db.songs ++ [⟨nextSongId db, n, false, bs⟩] },
                true⟩,
               .ok (nextSongId db)) := by
          simp [insert_song, session_scope, hfil, one_or_none, hbs,
            Session.commit, Session.close]
        rw [hcomp, Prod.mk.injEq] at he
        obtain ⟨hs1, hid⟩ := he
        rw [Except.ok.injEq] at hid
        subst hs1
        subst hid
        have hfil2 : (db.songs
              ++ [(⟨nextSongId db, n, false, bs⟩ : Song)]).filter
            (fun x => decide (x.name = n))
              = [(⟨nextSongId db, n, false, bs⟩ : Song)] := by
          rw [List.filter_append, hfil]
          simp
        exact insert_song_existing
          { db with songs := db.songs ++ [(⟨nextSongId db, n, false, bs⟩ : Song)] }
          n fh ⟨nextSongId db, n, false, bs⟩ hfil2
    | cons a t =>
      cases t with
      | nil =>
        rw [insert_song_existing db n fh a hfil, Prod.mk.injEq] at he
        obtain ⟨hs1, hid⟩ := he
        rw [Except.ok.injEq] at hid
        subst hs1
        subst hid
        exact insert_song_existing db n fh a hfil
      | cons b t2 =>
        have hcomp : insert_song db n fh
            = (⟨db, db, true⟩, .error .multipleResultsFound) := by
          simp [insert_song, session_scope, hfil, one_or_none,
            Session.rollback, Session.close]
        rw [hcomp] at he
        have hsnd := congrArg Prod.snd he
        simp at hsnd
  · intro db n fh s h
    exact insert_song_existing db n fh s h

/-- C6 witness: re-registering the only song named `"x"` with a different
file hash returns its id and leaves the store unchanged. -/
theorem C6_witness :
    insert_song ⟨[⟨1, "x", false, [171]⟩], []⟩ "x" "cd"
      = (⟨⟨[⟨1, "x", false, [171]⟩], []⟩, ⟨[⟨1, "x", false, [171]⟩], []⟩,
          true⟩, .ok 1) :=
  C6_theorem.2 ⟨[⟨1, "x", false, [171]⟩], []⟩ "x" "cd"
    ⟨1, "x", false, [171]⟩ (by decide)

/-- C7: `session_scope` closes the session on every exit path; if the body
completes normally its state is committed and its value returned; if the
body raises, the transaction is rolled back (the committed state is the
original one) and the same exception is re-raised. -/
theorem C7_theorem {α : Type} (db : DB)
    (body : DB → Except PyError (DB × α)) :
    ((session_scope db body).1.closed = true)
      ∧ (∀ (v : DB) (a : α), body db = .ok (v, a) →
          session_scope db body = (⟨v, v, true⟩, .ok a))
      ∧ (∀ e : PyError, body db = .error e →
          session_scope db body = (⟨db, db, true⟩, .error e)) := by
  refine ⟨?_, ?_, ?_⟩
  · rcases hb : body db with e | p <;>
      simp [session_scope, hb, Session.commit, Session.rollback,
        Session.close]
  · rintro v a hb
    simp [session_scope, hb, Session.commit, Session.close]
  · intro e hb
    simp [session_scope, hb, Session.rollback, Session.close]

/-- C7 witness: a succeeding and a failing body at a concrete store. -/
theorem C7_witness :
    (session_scope ⟨[], []⟩ (fun d => .ok (d, (0 : Nat)))).1.closed = true
      ∧ session_scope ⟨[], []⟩ (fun d => .ok (d, (0 : Nat)))
          = (⟨⟨[], []⟩, ⟨[], []⟩, true⟩, .ok 0)
      ∧ session_scope ⟨[], []⟩
            (fun _ => (.error .valueError : Except PyError (DB × Nat)))
          = (⟨⟨[], []⟩, ⟨[], []⟩, true⟩, .error .valueError) :=
  ⟨(C7_theorem ⟨[], []⟩ (fun d => .ok (d, (0 : Nat)))).1,
    (C7_theorem ⟨[], []⟩ (fun d => .ok (d, (0 : Nat)))).2.1 ⟨[], []⟩ 0 rfl,
    (C7_theorem ⟨[], []⟩
        (fun _ => (.error .valueError : Except PyError (DB × Nat)))).2.2
      .valueError rfl⟩

/-- C8: a stored song with `fingerprinted = false` is absent from
`get_songs`, does not contribute to `get_num_songs` (removing it leaves
the count unchanged), yet `get_song_by_id` still returns its record. -/
theorem C8_theorem (db : DB) (S : Song) (h1 : S.fingerprinted = false)
    (h2 : db.songs.find? (fun s => decide (s.song_id = S.song_id))
      = some S) :
    songToDict S ∉ get_songs db
      ∧ get_num_songs db = get_num_songs ⟨db.songs.erase S, db.fingerprints⟩
      ∧ get_song_by_id db S.song_id = some (songToDict S) := by
  refine ⟨?_, ?_, ?_⟩
  · intro hmem
    unfold get_songs at hmem
    rcases List.mem_map.mp hmem with ⟨s, hs, he⟩
    have hf : s.fingerprinted = true := (List.mem_filter.mp hs).2
    have h1d : (songToDict s).fingerprinted = 1 := by simp [songToDict, hf]
    rw [he] at h1d
    simp [songToDict, h1] at h1d
  · unfold get_num_songs
    exact (congrArg List.length (filter_erase_eq db.songs S h1)).symm
  · unfold get_song_by_id
    rw [h2]
    rfl

/-- C8 witness: the claim applied at a store holding one unfingerprinted
song. -/
theorem C8_witness :
    songToDict ⟨1, "x", false, [171]⟩
        ∉ get_songs ⟨[⟨1, "x", false, [171]⟩], []⟩
      ∧ get_num_songs ⟨[⟨1, "x", false, [171]⟩], []⟩
          = get_num_songs
              ⟨([⟨1, "x", false, [171]⟩] : List Song).erase
                  ⟨1, "x", false, [171]⟩, []⟩
      ∧ get_song_by_id ⟨[⟨1, "x", false, [171]⟩], []⟩ 1
          = some (songToDict ⟨1, "x", false, [171]⟩) :=
  C8_theorem ⟨[⟨1, "x", false, [171]⟩], []⟩ ⟨1, "x", false, [171]⟩ rfl
    (by decide)

/-- C9 counterexample: `insert_hashes` stores the offset `-1` unchanged —
the committed fingerprint row has a negative `song_offset`, so the offset
is not coerced to a non-negative integer. -/
theorem C9_counterexample :
    (insert_hashes ⟨[], []⟩ 1 [("ab", -1)]).1.base.fingerprints
        = [⟨[171], 1, -1⟩]
      ∧ (-1 : Int) < 0 :=
  ⟨by decide, by decide⟩

/-- C9 (amended): when every hash of the batch is valid hex,
`insert_hashes` commits exactly one row per `(hash, offset)` pair, whose
stored offset is `int(offset)` (truncation toward zero, see `pyInt` in
`hashRow`); offsets are not forced to be non-negative. -/
theorem C9_theorem (db : DB) (sid : Nat) (hashes : List (String × Rat))
    (h : ∀ p ∈ hashes, (bytesFromHex p.1).isSome = true) :
    insert_hashes db sid hashes
      = (⟨{ db with
              fingerprints := db.fingerprints ++ hashes.map (hashRow sid) },
          { db with
              fingerprints := db.fingerprints ++ hashes.map (hashRow sid) },
          true⟩,
         .ok ()) := by
  unfold insert_hashes
  simp [session_scope, insert_hashes_foldlM sid hashes db h,
    Except.map, Session.commit, Session.close]

/-- C9 witness: a batch holding a negative offset commits rows with the
offsets passed through `int(...)` unchanged. -/
theorem C9_witness :
    insert_hashes ⟨[], []⟩ 2 [("ab", 5), ("00", -1)]
      = (⟨⟨[], [⟨[171], 2, 5⟩, ⟨[0], 2, -1⟩]⟩,
          ⟨[], [⟨[171], 2, 5⟩, ⟨[0], 2, -1⟩]⟩, true⟩, .ok ()) :=
  (C9_theorem ⟨[], []⟩ 2 [("ab", 5), ("00", -1)] (by decide)).trans
    (by decide)

/-- C10: the empty probe hash (the decoding of the empty hex string) is
removed from every query chunk by the same `filter(None, ...)` that strips
the padding, so stored rows with the empty hash contribute no
correspondences: dropping them from the store does not change the
output. -/
theorem C10_theorem (db : DB) (probe : List (List Nat × Int)) :
    (∀ c ∈ grouper (mapperKeys probe), ¬ ([] ∈ c))
      ∧ return_matches db probe
          = return_matches
              ⟨db.songs, db.fingerprints.filter
                (fun f => decide (f.hash ≠ []))⟩ probe
      ∧ bytesFromHex "" = some [] := by
  refine ⟨fun _ hc => nil_not_mem_of_mem_grouper hc, ?_, rfl⟩
  rw [return_matches_eq_flatten, return_matches_eq_flatten]
  congr 1
  congr 1
  refine List.map_congr_left (fun c hc => ?_)
  show queryIn db.fingerprints c
      = queryIn (db.fingerprints.filter (fun f => decide (f.hash ≠ []))) c
  unfold queryIn
  rw [List.filter_filter]
  refine List.filter_congr (fun f _ => ?_)
  by_cases hf : f.hash ∈ c
  · have hne : f.hash ≠ [] :=
      fun he2 => nil_not_mem_of_mem_grouper hc (he2 ▸ hf)
    simp [hf, hne]
  · simp [hf]

/-- C10 witness: a store holding an empty-hash row and a probe containing
the empty hash; the chunk contains only the non-empty hash and the output
ignores the empty-hash row. -/
theorem C10_witness :
    ¬ ([] ∈ ([[171]] : List (List Nat)))
      ∧ return_matches ⟨[], [⟨[], 1, 5⟩, ⟨[171], 7, 9⟩]⟩
            [([171], 2), ([], 3)]
          = return_matches
              ⟨[], ([⟨[], 1, 5⟩, ⟨[171], 7, 9⟩] : List Fingerprint).filter
                  (fun f => decide (f.hash ≠ []))⟩ [([171], 2), ([], 3)]
      ∧ bytesFromHex "" = some [] := by
  have h := C10_theorem ⟨[], [⟨[], 1, 5⟩, ⟨[171], 7, 9⟩]⟩
    [([171], 2), ([], 3)]
  refine ⟨h.1 [[171]] ?_, h.2.1, h.2.2⟩
  have hk : mapperKeys [([171], (2 : Int)), ([], 3)] = [[171], []] := by
    decide
  rw [hk, grouper_eq, blocksOf_small (by decide) (by decide)]
  decide

end Dejavu
